import Mathlib

/-!
Verification of the resilient interpretation-request orchestration layer of
the zi-wi repository: the fixed-window rate limiter (`src/lib/rateLimit.ts`),
the LRU + TTL cache and cache-key builder (`src/lib/cache.ts`), the retry
executor and the LLM fallback orchestration (`src/lib/retry.ts`,
`src/lib/llm.ts`), and the tiered-cache interpret route
(`src/app/api/interpret/route.ts`).

Each TypeScript function is embedded shallowly: JavaScript `Map`s become
association lists in insertion order (iteration order of a JS `Map` is
insertion order), `Date.now()` becomes an explicit `now : Nat` argument,
millisecond timestamps become `Nat`, promises/exceptions become `Except`,
and asynchronous operations become functions from attempt indices to
outcomes.
-/

namespace ZiWi

/-! ## JavaScript `Map` model

A JS `Map<string, V>` is modelled as a `List (String × V)` in insertion
order.  `Map.get` returns the (unique) binding; `Map.set` on an existing
key updates in place and keeps the position, on a fresh key appends at the
end; `Map.delete` removes the binding. -/

def storeGet {V : Type} : List (String × V) → String → Option V
  | [], _ => none
  | (k, v) :: rest, key => if k = key then some v else storeGet rest key

def storeSet {V : Type} : List (String × V) → String → V → List (String × V)
  | [], key, v => [(key, v)]
  | (k, w) :: rest, key, v =>
      if k = key then (key, v) :: rest else (k, w) :: storeSet rest key v

def storeDelete {V : Type} : List (String × V) → String → List (String × V)
  | [], _ => []
  | (k, v) :: rest, key => if k = key then rest else (k, v) :: storeDelete rest key

def storeHas {V : Type} (s : List (String × V)) (key : String) : Bool :=
  (storeGet s key).isSome

/-! ## Rate limiter (`src/lib/rateLimit.ts`)

`checkRateLimit` keyed by `keyPrefix + ":" + identifier` over the module
level `rateLimitStore` map.  The JS `keyPrefix` field is named `keyPref`
here. -/

structure RateLimitRecord where
  count : Nat
  resetTime : Nat
deriving DecidableEq, Repr

structure RateLimitConfig where
  windowMs : Nat
  maxRequests : Nat
  keyPref : String
deriving DecidableEq, Repr

structure RateLimitResult where
  allowed : Bool
  remaining : Nat
  resetTime : Nat
  retryAfter : Option Nat
deriving DecidableEq, Repr

def rlKey (cfg : RateLimitConfig) (identifier : String) : String :=
  cfg.keyPref ++ ":" ++ identifier

/-- `checkRateLimit(identifier, config)` from `src/lib/rateLimit.ts`,
with the mutable `rateLimitStore` passed and returned explicitly and
`Date.now()` as `now`.  `Math.ceil((resetTime - now) / 1000)` on
non-negative integers is `(resetTime - now + 999) / 1000` in `Nat`. -/
def checkRateLimit (store : List (String × RateLimitRecord)) (identifier : String)
    (cfg : RateLimitConfig) (now : Nat) :
    RateLimitResult × List (String × RateLimitRecord) :=
  let key := rlKey cfg identifier
  match storeGet store key with
  | none =>
      let record : RateLimitRecord := ⟨1, now + cfg.windowMs⟩
      (⟨true, cfg.maxRequests - 1, record.resetTime, none⟩, storeSet store key record)
  | some record =>
      if record.resetTime < now then
        let record' : RateLimitRecord := ⟨1, now + cfg.windowMs⟩
        (⟨true, cfg.maxRequests - 1, record'.resetTime, none⟩, storeSet store key record')
      else if cfg.maxRequests ≤ record.count then
        (⟨false, 0, record.resetTime, some ((record.resetTime - now + 999) / 1000)⟩, store)
      else
        let record' : RateLimitRecord := ⟨record.count + 1, record.resetTime⟩
        (⟨true, cfg.maxRequests - record'.count, record'.resetTime, none⟩,
          storeSet store key record')

/-- A sequence of `checkRateLimit` calls for one identifier at the given
`Date.now()` values, threading the store. -/
def simulateCalls (identifier : String) (cfg : RateLimitConfig) :
    List Nat → List (String × RateLimitRecord) →
    List RateLimitResult × List (String × RateLimitRecord)
  | [], store => ([], store)
  | t :: ts, store =>
      let p := checkRateLimit store identifier cfg t
      let q := simulateCalls identifier cfg ts p.2
      (p.1 :: q.1, q.2)

/-! ## LRU + TTL cache (`src/lib/cache.ts`)

`LRUCache<T>` holds a JS `Map<string, CacheEntry<T>>`; insertion order is
recency order (oldest first).  `Date.now()` is passed as `now`. -/

structure CacheEntry (V : Type) where
  value : V
  expiresAt : Nat
deriving DecidableEq, Repr

structure LRUCache (V : Type) where
  store : List (String × CacheEntry V)
  maxSize : Nat
  defaultTTL : Nat
deriving DecidableEq, Repr

/-- JS `ttl || this.defaultTTL`: `0` and `undefined` are falsy. -/
def ttlOrDefault (ttl : Option Nat) (dflt : Nat) : Nat :=
  match ttl with
  | some t => if t = 0 then dflt else t
  | none => dflt

/-- `LRUCache.get`: on a hit, delete and re-insert at the
most-recently-used end; on an entry with `Date.now() > expiresAt`, delete
it and return `undefined`. -/
def LRUCache.get {V : Type} (c : LRUCache V) (key : String) (now : Nat) :
    Option V × LRUCache V :=
  match storeGet c.store key with
  | none => (none, c)
  | some entry =>
      if entry.expiresAt < now then
        (none, { c with store := storeDelete c.store key })
      else
        (some entry.value, { c with store := storeDelete c.store key ++ [(key, entry)] })

/-- The eviction step of `LRUCache.set`:
`const firstKey = this.cache.keys().next().value; if (firstKey) delete(firstKey)`.
The JS truthiness guard skips the delete when the map is empty
(`firstKey` is `undefined`) and also when the oldest key is the empty
string (`""` is falsy). -/
def evictFirst {V : Type} : List (String × V) → List (String × V)
  | [] => []
  | (k, v) :: rest => if k = "" then (k, v) :: rest else rest

/-- `LRUCache.set`: delete an existing binding first; when at capacity run
the guarded eviction of the oldest entry (see `evictFirst`); then insert
at the end with `expiresAt = Date.now() + (ttl || defaultTTL)`. -/
def LRUCache.set {V : Type} (c : LRUCache V) (key : String) (value : V)
    (ttl : Option Nat) (now : Nat) : LRUCache V :=
  let s₁ := if storeHas c.store key then storeDelete c.store key else c.store
  let s₂ := if c.maxSize ≤ s₁.length then evictFirst s₁ else s₁
  { c with store := s₂ ++ [(key, ⟨value, now + ttlOrDefault ttl c.defaultTTL⟩)] }

/-- `LRUCache.has`: an entry with `Date.now() > expiresAt` is deleted and
reported absent. -/
def LRUCache.has {V : Type} (c : LRUCache V) (key : String) (now : Nat) :
    Bool × LRUCache V :=
  match storeGet c.store key with
  | none => (false, c)
  | some entry =>
      if entry.expiresAt < now then
        (false, { c with store := storeDelete c.store key })
      else
        (true, c)

/-- `LRUCache.cleanup`: the periodic sweep; removes every entry with
`now > expiresAt` and returns the removed count. -/
def LRUCache.cleanup {V : Type} (c : LRUCache V) (now : Nat) : Nat × LRUCache V :=
  let kept := c.store.filter (fun kv => !(kv.2.expiresAt < now))
  (c.store.length - kept.length, { c with store := kept })

/-! ## Cache keys (`generateCacheKey` in `src/lib/cache.ts`)

Arguments are JSON-like values.  A non-object argument is converted with
JS `String(...)`; an object-valued argument is serialized with
`JSON.stringify(arg, Object.keys(arg).sort())`, i.e. with the
lexicographically sorted key list as the stringify property list.  String
escaping is modelled for quote and backslash (the only characters needing
escapes in the keys this system builds). -/

inductive JVal where
  | str (s : String)
  | num (n : Int)
  | bool (b : Bool)
  | null
  | arr (elems : List JVal)
  | obj (fields : List (String × JVal))

def jsonEscape (s : String) : String :=
  s.foldl (fun acc c =>
    acc ++ (if c = '"' then "\\\"" else if c = '\\' then "\\\\" else String.singleton c)) ""

def jsonQuote (s : String) : String := "\"" ++ jsonEscape s ++ "\""

/-- JS `String(arg)` for the non-object arguments `generateCacheKey`
receives. -/
def jsToString : JVal → String
  | .str s => s
  | .num n => toString n
  | .bool b => if b then "true" else "false"
  | .null => "null"
  | .arr _ => ""
  | .obj _ => ""

/-- `JSON.stringify(v, K)` with property list `K`: objects emit, in the
order of `K`, exactly the listed keys they possess; arrays emit all
elements; `K` recursively filters nested objects (ECMA-262
SerializeJSONObject with PropertyList).  For termination, an object first
serializes every field and then selects by `K`; selecting commutes with
serialization (`storeGet_map_snd`), so this equals looking each `k ∈ K`
up and serializing the value found. -/
def jsonStringifyK (K : List String) : JVal → String
  | .str s => jsonQuote s
  | .num n => toString n
  | .bool b => if b then "true" else "false"
  | .null => "null"
  | .arr es => "[" ++ String.intercalate ","
      (es.attach.map (fun x => jsonStringifyK K x.1)) ++ "]"
  | .obj fs =>
      let sfs := fs.attach.map (fun x => (x.1.1, jsonStringifyK K x.1.2))
      "\x7b" ++ String.intercalate ","
        (K.filterMap (fun k =>
          (storeGet sfs k).map (fun sv => jsonQuote k ++ ":" ++ sv)))
      ++ "\x7d"
decreasing_by
  · have h1 := List.sizeOf_lt_of_mem x.2
    simp only [JVal.arr.sizeOf_spec]
    omega
  · have h1 := List.sizeOf_lt_of_mem x.2
    have h2 : sizeOf x.1.2 < sizeOf x.1 := by
      obtain ⟨a, b⟩ := x.1
      simp only [Prod.mk.sizeOf_spec]
      omega
    simp only [JVal.obj.sizeOf_spec]
    omega

/-- `Object.keys(arg)` for object and array values. -/
def jsKeys : JVal → List String
  | .obj fields => fields.map Prod.fst
  | .arr elems => (List.range elems.length).map (fun i => toString i)
  | _ => []

def sortStrings (l : List String) : List String :=
  List.insertionSort (· ≤ ·) l

/-- One argument of `generateCacheKey`: `typeof arg === 'object'` values
(objects and arrays) go through sorted-key `JSON.stringify`, everything
else through `String(arg)`. -/
def serializeArg (v : JVal) : String :=
  match v with
  | .obj _ => jsonStringifyK (sortStrings (jsKeys v)) v
  | .arr _ => jsonStringifyK (sortStrings (jsKeys v)) v
  | _ => jsToString v

/-- `generateCacheKey(prefix, ...args)` from `src/lib/cache.ts`. -/
def generateCacheKey (pre : String) (args : List JVal) : String :=
  pre ++ ":" ++ String.intercalate ":" (args.map serializeArg)

/-! ## Error taxonomy and retry executor (`src/lib/retry.ts`)

The error classes of `retry.ts`: `RateLimitError extends RetryableError`
(status 429, fixed message), `RetryableError extends Error` (optional
`statusCode`, optional `retryAfter`), `APIError extends Error` (with a
`retryable` flag), plus plain `Error` and `TypeError` values. -/

inductive JsError where
  | rateLimitError (retryAfter : Nat)
  | retryableError (msg : String) (statusCode : Option Nat) (retryAfter : Option Nat)
  | apiError (msg : String) (statusCode : Nat) (code : Option String) (retryable : Bool)
  | typeError (msg : String)
  | plainError (msg : String)
deriving DecidableEq, Repr

/-- `error.message` of each error value. -/
def JsError.message : JsError → String
  | .rateLimitError _ => "請求過於頻繁，請稍後再試"
  | .retryableError m _ _ => m
  | .apiError m _ _ _ => m
  | .typeError m => m
  | .plainError m => m

/-- JS `sub.includes`-style substring test on strings. -/
def containsSub : List Char → List Char → Bool
  | hay, sub =>
    match hay with
    | [] => sub.isEmpty
    | _ :: rest => sub.isPrefixOf hay || containsSub rest sub

def strIncludes (s sub : String) : Bool :=
  containsSub s.data sub.data

/-- `isRetryableError` from `src/lib/retry.ts`: `RetryableError` instances
(including `RateLimitError`) are retryable; `APIError` by its flag; other
errors by status code when they carry one (none of the remaining shapes
do); a `TypeError` whose message mentions `fetch`; otherwise not. -/
def isRetryableError : JsError → Bool
  | .rateLimitError _ => true
  | .retryableError _ _ _ => true
  | .apiError _ _ _ r => r
  | .typeError m => strIncludes m "fetch"
  | .plainError _ => false

/-- One attempt of the operation passed to `withRetry`, raced against the
timeout timer: the operation resolves, rejects, or the timer fires
first. -/
inductive AttemptOutcome (A : Type) where
  | ok (a : A)
  | fail (e : JsError)
  | timeout
deriving DecidableEq, Repr

/-- The error `withRetry` observes for an attempt: a timed-out race
rejects with the plain `Error('請求超時')` built inside `withRetry`. -/
def observeAttempt {A : Type} : AttemptOutcome A → Except JsError A
  | .ok a => .ok a
  | .fail e => .error e
  | .timeout => .error (.plainError "請求超時")

/-- The retry loop of `withRetry`: `attempt` is the current index,
`remaining = maxRetries - attempt`.  After a failure the loop rethrows
when `attempt >= maxRetries` or the error is not retryable, and otherwise
sleeps (delays do not affect results and are dropped) and retries.
Returns the result together with the number of invocations made. -/
def withRetryAux {A : Type} (ops : Nat → AttemptOutcome A) :
    Nat → Nat → Except JsError A × Nat
  | attempt, remaining =>
    match observeAttempt (ops attempt), remaining with
    | .ok a, _ => (.ok a, attempt + 1)
    | .error e, 0 => (.error e, attempt + 1)
    | .error e, r + 1 =>
      if isRetryableError e then withRetryAux ops (attempt + 1) r
      else (.error e, attempt + 1)

/-- `withRetry(fn, config)` from `src/lib/retry.ts`.  The merged config
always carries a timeout (the default supplies `timeoutMs: 30000`), so
every attempt is raced against the timer; of the config only `maxRetries`
influences which value is returned and how many attempts run.  The `fn`
closure is modelled by the outcome of each attempt index. -/
def withRetry {A : Type} (maxRetries : Nat) (ops : Nat → AttemptOutcome A) :
    Except JsError A × Nat :=
  withRetryAux ops 0 maxRetries

/-! ## Model fallback orchestration (`callOpenAIWithFallback` in `src/lib/llm.ts`) -/

def MODEL_FALLBACK_ORDER : List String := ["gpt-4o-mini", "gpt-3.5-turbo"]

/-- The model list built at the top of `callOpenAIWithFallback`:
`[config.model]` then each fallback not already present. -/
def buildModelChain (preferred : String) (fallbacks : List String) : List String :=
  fallbacks.foldl (fun ms m => if m ∈ ms then ms else ms ++ [m]) [preferred]

/-- The `for (const model of models)` loop: try each model, return on the
first success, record the error and continue otherwise, and finally throw
the last recorded error (`none` when no model was tried).  Also returns
the list of models invoked. -/
def runModels {E A : Type} (call : String → Except E A) :
    List String → Option E → Except (Option E) A × List String
  | [], lastError => (.error lastError, [])
  | m :: rest, _ =>
    match call m with
    | .ok a => (.ok a, [m])
    | .error e =>
      let p := runModels call rest (some e)
      (p.1, m :: p.2)

/-- `callOpenAIWithFallback(messages, config)`: each model is called
through `withRetry(() => callOpenAIAPI(messages, config, model),
{ maxRetries: 2, ... })`; `ops model attempt` is the outcome of that
model's attempt number `attempt`. -/
def callOpenAIWithFallback (ops : String → Nat → AttemptOutcome String)
    (preferredModel : String) : Except (Option JsError) String × List String :=
  runModels (fun m => (withRetry 2 (ops m)).1)
    (buildModelChain preferredModel MODEL_FALLBACK_ORDER) none

/-! ## `callLLM` (`src/lib/llm.ts`) -/

structure InterpretResult where
  life : String
  siblings : String
  marriage : String
  children : String
  wealth : String
  health : String
  travel : String
  friends : String
  career : String
  property : String
  fortune : String
  parents : String
  summary : String
  todayAdvice : List String
  todayTodo : List String
  todayAvoid : List String
deriving DecidableEq, Repr

/-- `getDefaultResult(errorMessage?)`: every palace field carries
`errorMessage || '無法生成解讀，請稍後再試。'` and the summary
`errorMessage || '目前無法連接 AI 服務，請檢查網路連線或稍後再試。'`
(`""` is falsy in JS). -/
def getDefaultResult (errorMessage : Option String) : InterpretResult :=
  let defaultText :=
    match errorMessage with
    | some m => if m = "" then "無法生成解讀，請稍後再試。" else m
    | none => "無法生成解讀，請稍後再試。"
  let summaryText :=
    match errorMessage with
    | some m => if m = "" then "目前無法連接 AI 服務，請檢查網路連線或稍後再試。" else m
    | none => "目前無法連接 AI 服務，請檢查網路連線或稍後再試。"
  { life := defaultText, siblings := defaultText, marriage := defaultText
    children := defaultText, wealth := defaultText, health := defaultText
    travel := defaultText, friends := defaultText, career := defaultText
    property := defaultText, fortune := defaultText, parents := defaultText
    summary := summaryText, todayAdvice := [], todayTodo := [], todayAvoid := [] }

/-- The message `callLLM`'s catch block feeds to `getDefaultResult` for a
failure: `RateLimitError` first, then `APIError` (the code shows
`error.code || error.statusCode`), then any `Error` whose message
mentions `超時`, then the generic network message. -/
def llmErrorDefaultMsg (e : JsError) : String :=
  match e with
  | .rateLimitError _ => "服務繁忙中，請稍後再試"
  | .apiError _ st code _ =>
      "服務暫時不可用 (" ++
        (match code with
         | some c => if c = "" then toString st else c
         | none => toString st) ++ ")"
  | _ =>
      if strIncludes (JsError.message e) "超時" then "服務回應超時，請稍後再試"
      else "無法連接 AI 服務，請檢查網路連線"

/-- `callLLM(astrolabe, fortune, topics)` after prompt building: without
an API key it short-circuits to the default result; otherwise it runs the
fallback chain, parses a successful response (`parseLLMResponse` is
abstracted as `parse`), and converts every thrown error into a default
result.  A chain result of `.error none` corresponds to
`throw lastError` with no model tried, whose caught value fails every
`instanceof` test. -/
def callLLM (parse : String → InterpretResult) (apiKey : String)
    (fallbackOutcome : Except (Option JsError) String) : InterpretResult :=
  if apiKey = "" then getDefaultResult (some "API 金鑰未設定，請聯繫管理員")
  else
    match fallbackOutcome with
    | .ok content => parse content
    | .error (some e) => getDefaultResult (some (llmErrorDefaultMsg e))
    | .error none => getDefaultResult (some "無法連接 AI 服務，請檢查網路連線")

/-! ## Interpret route (`src/app/api/interpret/route.ts`)

The POST handler: admission check, then memory cache, then the Supabase
persistent cache, then `callLLM`, back-filling the memory cache (TTL
`5 * 60 * 1000` ms) and firing a best-effort Supabase save.  The Supabase
lookup and save are network calls modelled by their observable results;
`callLLM` never rejects, so the `catch` branch (`serverError`) is
unreachable from a well-formed body. -/

inductive FScope where
  | natal
  | decade
  | year
  | month
  | day
deriving DecidableEq, Repr

def FScope.toStr : FScope → String
  | .natal => "natal"
  | .decade => "decade"
  | .year => "year"
  | .month => "month"
  | .day => "day"

structure AstrolabeIn where
  chartId : String
deriving DecidableEq, Repr

structure FortuneIn where
  scope : FScope
  decadeRange : Option (Nat × Nat)
  year : Option Nat
  month : Option Nat
  day : Option Nat
deriving DecidableEq, Repr

/-- `buildInterpretCacheKey(astrolabe, fortune)` from the route: natal
requests use the fixed `'natal'` argument; other scopes build
`scope-decadeKey-year-month-day` with `|| 0` defaults (`0` is its own
fallback, so `getD 0` is exact). -/
def buildInterpretCacheKey (a : AstrolabeIn) (fortune : Option FortuneIn) : String :=
  match fortune with
  | none => generateCacheKey "interpret" [JVal.str a.chartId, JVal.str "natal"]
  | some f =>
    if f.scope = FScope.natal then
      generateCacheKey "interpret" [JVal.str a.chartId, JVal.str "natal"]
    else
      let decadeKey :=
        match f.decadeRange with
        | some r => toString r.1 ++ "-" ++ toString r.2
        | none => "nodecade"
      let fortuneKey := f.scope.toStr ++ "-" ++ decadeKey ++ "-" ++
        toString (f.year.getD 0) ++ "-" ++ toString (f.month.getD 0) ++ "-" ++
        toString (f.day.getD 0)
      generateCacheKey "interpret" [JVal.str a.chartId, JVal.str fortuneKey]

/-- The three values `cacheSource` takes in the route. -/
inductive CacheSource where
  | memory
  | supabase
  | llm
deriving DecidableEq, Repr

/-- Modelled from the spec: §4.6 names the route's cache tiers
`'memory' | 'persistent' | 'computed'`; the code's literals are
`'memory' | 'supabase' | 'llm'`.  This is the spec's name for each code
tier. -/
def specSourceName : CacheSource → String
  | .memory => "memory"
  | .supabase => "persistent"
  | .llm => "computed"

inductive RouteResponse where
  | rateLimited (retryAfterSeconds : Option Nat)
  | badRequest
  | okJson (result : InterpretResult) (cacheSource : CacheSource)
      (remaining : Nat) (resetTime : Nat)
  | serverError
deriving DecidableEq, Repr

structure RouteOutcome where
  response : RouteResponse
  cache : LRUCache InterpretResult
  llmCalls : Nat
  supabaseSaved : Bool
deriving DecidableEq, Repr

/-- The POST handler after `checkRateLimit` produced `rate`:
`body = none` models a request without `astrolabe`; `supabaseCached` is
what `getCachedInterpretation` would yield when consulted (`none` for a
miss or failure); `llmResult` is what `callLLM` would return if invoked;
`llmCalls` counts invocations of `callLLM` (and hence of the narrative
backend); `supabaseSaved` records that the fire-and-forget
`saveInterpretation` was started. -/
def interpretPOST (cache : LRUCache InterpretResult) (rate : RateLimitResult)
    (body : Option (AstrolabeIn × Option FortuneIn))
    (supabaseConfigured : Bool) (supabaseCached : Option InterpretResult)
    (llmResult : InterpretResult) (now : Nat) : RouteOutcome :=
  if rate.allowed = false then ⟨.rateLimited rate.retryAfter, cache, 0, false⟩
  else
    match body with
    | none => ⟨.badRequest, cache, 0, false⟩
    | some (a, fortune) =>
      let key := buildInterpretCacheKey a fortune
      let g := LRUCache.get cache key now
      match g.1 with
      | some r => ⟨.okJson r .memory rate.remaining rate.resetTime, g.2, 0, false⟩
      | none =>
        match (if supabaseConfigured then supabaseCached else none) with
        | some r =>
            ⟨.okJson r .supabase rate.remaining rate.resetTime,
              LRUCache.set g.2 key r (some (5 * 60 * 1000)) now, 0, false⟩
        | none =>
            ⟨.okJson llmResult .llm rate.remaining rate.resetTime,
              LRUCache.set g.2 key llmResult (some (5 * 60 * 1000)) now, 1,
              supabaseConfigured⟩

/-! ## Store lemmas -/

theorem storeGet_storeSet_self {V : Type} (s : List (String × V)) (k : String) (v : V) :
    storeGet (storeSet s k v) k = some v := by
  induction s with
  | nil => simp [storeSet, storeGet]
  | cons hd tl ih =>
    obtain ⟨k', w⟩ := hd
    by_cases h : k' = k
    · simp [storeSet, storeGet, h]
    · simp [storeSet, storeGet, h, ih]

/-! ## Rate limiter theorems (claim C2) -/

/-- While a record for the key is live (`now ≤ resetTime`) and its count
is below the limit, every further call in the window is allowed and
increments the stored count by one. -/
theorem simulateCalls_inWindow (id : String) (cfg : RateLimitConfig) (R : Nat)
    (ts : List Nat) :
    ∀ (store : List (String × RateLimitRecord)) (c : Nat),
      storeGet store (rlKey cfg id) = some ⟨c, R⟩ →
      (∀ t ∈ ts, t ≤ R) →
      c + ts.length ≤ cfg.maxRequests →
      (∀ r ∈ (simulateCalls id cfg ts store).1, r.allowed = true) ∧
      storeGet (simulateCalls id cfg ts store).2 (rlKey cfg id) = some ⟨c + ts.length, R⟩ := by
  induction ts with
  | nil =>
    intro store c hget _ _
    simpa [simulateCalls] using hget
  | cons t ts ih =>
    intro store c hget hts hcnt
    have htR : t ≤ R := hts t (by simp)
    have hcR : ¬ R < t := Nat.not_lt.mpr htR
    have hclt : ¬ cfg.maxRequests ≤ c := by
      simp only [List.length_cons] at hcnt
      omega
    have hstep : checkRateLimit store id cfg t =
        (⟨true, cfg.maxRequests - (c + 1), R, none⟩,
          storeSet store (rlKey cfg id) ⟨c + 1, R⟩) := by
      simp [checkRateLimit, hget, hcR, hclt]
    have hget' : storeGet (storeSet store (rlKey cfg id) ⟨c + 1, R⟩) (rlKey cfg id)
        = some ⟨c + 1, R⟩ := storeGet_storeSet_self _ _ _
    have hts' : ∀ t' ∈ ts, t' ≤ R := fun t' h => hts t' (by simp [h])
    have hcnt' : c + 1 + ts.length ≤ cfg.maxRequests := by
      simp only [List.length_cons] at hcnt
      omega
    obtain ⟨hall, hfin⟩ := ih _ (c + 1) hget' hts' hcnt'
    constructor
    · intro r hr
      simp only [simulateCalls, hstep, List.mem_cons] at hr
      rcases hr with hr | hr
      · simp [hr]
      · exact hall r hr
    · simp only [simulateCalls, hstep]
      convert hfin using 3
      simp [List.length_cons]
      omega

/-- C2: for a policy with `maxRequests = N` and any identity starting with
no live record, the first `N` calls inside the window are allowed; after
them the stored count is exactly `N`; an `(N+1)`th call still inside the
window is rejected with `remaining = 0` and
`retryAfter = ceil((windowResetAt - now) / 1000)` while leaving the store
unchanged (rejecting, never clamping); and a call after the reset time has
passed is allowed with a fresh record of count 1. -/
theorem checkRateLimit_window (cfg : RateLimitConfig) (id : String)
    (store₀ : List (String × RateLimitRecord)) (t₀ : Nat) (ts : List Nat)
    (hfresh : storeGet store₀ (rlKey cfg id) = none)
    (hts : ∀ t ∈ ts, t ≤ t₀ + cfg.windowMs)
    (hlen : ts.length + 1 = cfg.maxRequests) :
    (∀ r ∈ (simulateCalls id cfg (t₀ :: ts) store₀).1, r.allowed = true)
    ∧ storeGet (simulateCalls id cfg (t₀ :: ts) store₀).2 (rlKey cfg id)
        = some ⟨cfg.maxRequests, t₀ + cfg.windowMs⟩
    ∧ (∀ t, t ≤ t₀ + cfg.windowMs →
        checkRateLimit (simulateCalls id cfg (t₀ :: ts) store₀).2 id cfg t
          = (⟨false, 0, t₀ + cfg.windowMs, some ((t₀ + cfg.windowMs - t + 999) / 1000)⟩,
             (simulateCalls id cfg (t₀ :: ts) store₀).2))
    ∧ (∀ t', t₀ + cfg.windowMs < t' →
        (checkRateLimit (simulateCalls id cfg (t₀ :: ts) store₀).2 id cfg t').1
          = ⟨true, cfg.maxRequests - 1, t' + cfg.windowMs, none⟩
        ∧ storeGet (checkRateLimit (simulateCalls id cfg (t₀ :: ts) store₀).2 id cfg t').2
            (rlKey cfg id) = some ⟨1, t' + cfg.windowMs⟩) := by
  have hstep0 : checkRateLimit store₀ id cfg t₀ =
      (⟨true, cfg.maxRequests - 1, t₀ + cfg.windowMs, none⟩,
        storeSet store₀ (rlKey cfg id) ⟨1, t₀ + cfg.windowMs⟩) := by
    simp [checkRateLimit, hfresh]
  have hget1 : storeGet (storeSet store₀ (rlKey cfg id) ⟨1, t₀ + cfg.windowMs⟩)
      (rlKey cfg id) = some ⟨1, t₀ + cfg.windowMs⟩ := storeGet_storeSet_self _ _ _
  have hcnt : 1 + ts.length ≤ cfg.maxRequests := by omega
  obtain ⟨hall, hfin⟩ :=
    simulateCalls_inWindow id cfg (t₀ + cfg.windowMs) ts _ 1 hget1 hts hcnt
  have hsim : simulateCalls id cfg (t₀ :: ts) store₀ =
      ((⟨true, cfg.maxRequests - 1, t₀ + cfg.windowMs, none⟩ : RateLimitResult) ::
        (simulateCalls id cfg ts (storeSet store₀ (rlKey cfg id) ⟨1, t₀ + cfg.windowMs⟩)).1,
       (simulateCalls id cfg ts (storeSet store₀ (rlKey cfg id) ⟨1, t₀ + cfg.windowMs⟩)).2) := by
    simp [simulateCalls, hstep0]
  have hfin' : storeGet (simulateCalls id cfg (t₀ :: ts) store₀).2 (rlKey cfg id)
      = some ⟨cfg.maxRequests, t₀ + cfg.windowMs⟩ := by
    rw [hsim]
    convert hfin using 3
    omega
  refine ⟨?_, hfin', ?_, ?_⟩
  · intro r hr
    rw [hsim] at hr
    simp only [List.mem_cons] at hr
    rcases hr with hr | hr
    · simp [hr]
    · exact hall r hr
  · intro t ht
    have hcR : ¬ t₀ + cfg.windowMs < t := Nat.not_lt.mpr ht
    simp [checkRateLimit, hfin', hcR]
  · intro t' ht'
    constructor
    · simp [checkRateLimit, hfin', ht']
    · simp only [checkRateLimit, hfin', ht', if_pos]
      exact storeGet_storeSet_self _ _ _

/-- Witness for `checkRateLimit_window`: policy `maxRequests = 2`,
`windowMs = 60000`, calls at `t = 0` and `t = 10`, a rejected third call
at `t = 20`, and an allowed call at `t = 60001`. -/
theorem checkRateLimit_window_witness :
    (storeGet ([] : List (String × RateLimitRecord))
        (rlKey ⟨60000, 2, "interpret"⟩ "1.2.3.4") = none)
    ∧ (checkRateLimit
          (simulateCalls "1.2.3.4" ⟨60000, 2, "interpret"⟩ [0, 10] []).2
          "1.2.3.4" ⟨60000, 2, "interpret"⟩ 20
        = (⟨false, 0, 60000, some 60⟩,
           (simulateCalls "1.2.3.4" ⟨60000, 2, "interpret"⟩ [0, 10] []).2))
    ∧ (checkRateLimit
          (simulateCalls "1.2.3.4" ⟨60000, 2, "interpret"⟩ [0, 10] []).2
          "1.2.3.4" ⟨60000, 2, "interpret"⟩ 60001).1
        = ⟨true, 1, 120001, none⟩ := by
  have h := checkRateLimit_window ⟨60000, 2, "interpret"⟩ "1.2.3.4" [] 0 [10]
    rfl (by decide) (by decide)
  exact ⟨rfl, h.2.2.1 20 (by decide), (h.2.2.2 60001 (by decide)).1⟩

/-! ## LRU cache theorems (claims C4, C5) -/

theorem storeGet_eq_none_iff {V : Type} (s : List (String × V)) (k : String) :
    storeGet s k = none ↔ k ∉ s.map Prod.fst := by
  induction s with
  | nil => simp [storeGet]
  | cons hd tl ih =>
    obtain ⟨k', v⟩ := hd
    by_cases h : k' = k
    · simp [storeGet, h]
    · simp [storeGet, h, ih, Ne.symm h]

theorem not_mem_keys_storeDelete {V : Type} (s : List (String × V)) (k : String)
    (hnd : (s.map Prod.fst).Nodup) : k ∉ (storeDelete s k).map Prod.fst := by
  induction s with
  | nil => simp [storeDelete]
  | cons hd tl ih =>
    obtain ⟨k', v⟩ := hd
    simp only [List.map_cons, List.nodup_cons] at hnd
    by_cases h : k' = k
    · subst h
      simpa [storeDelete] using hnd.1
    · simp only [storeDelete, if_neg h, List.map_cons, List.mem_cons]
      push_neg
      exact ⟨fun hc => h hc.symm, ih hnd.2⟩

/-- C4 (amended): an entry is visible to `get`/`has` exactly while
`now ≤ expiresAt` (the code's check is `Date.now() > expiresAt`); whenever
`now > expiresAt`, `get` deletes the entry and returns absent and `has`
returns `false`, independently of any `cleanup` sweep; in particular `get`
never returns a value whose entry has `expiresAt < now`. -/
theorem lruGet_visibility {V : Type} (c : LRUCache V) (key : String) (now : Nat) :
    (∀ v : V, (LRUCache.get c key now).1 = some v ↔
      ∃ e, storeGet c.store key = some e ∧ e.value = v ∧ now ≤ e.expiresAt)
    ∧ ((LRUCache.has c key now).1 = true ↔
      ∃ e, storeGet c.store key = some e ∧ now ≤ e.expiresAt)
    ∧ (∀ e, storeGet c.store key = some e → e.expiresAt < now →
        (LRUCache.get c key now).2.store = storeDelete c.store key
        ∧ ((c.store.map Prod.fst).Nodup →
            storeGet (LRUCache.get c key now).2.store key = none)
        ∧ (LRUCache.has c key now).1 = false) := by
  cases h : storeGet c.store key with
  | none =>
    refine ⟨?_, ?_, ?_⟩
    · intro v
      simp [LRUCache.get, h]
    · simp [LRUCache.has, h]
    · intro e he
      exact absurd he (by simp)
  | some entry =>
    by_cases hexp : entry.expiresAt < now
    · refine ⟨?_, ?_, ?_⟩
      · intro v
        simp only [LRUCache.get, h, if_pos hexp]
        constructor
        · intro hv
          exact absurd hv (by simp)
        · rintro ⟨e, he, -, hle⟩
          injection he with he'
          subst he'
          omega
      · simp only [LRUCache.has, h, if_pos hexp]
        constructor
        · intro hv
          exact absurd hv (by simp)
        · rintro ⟨e, he, hle⟩
          injection he with he'
          subst he'
          omega
      · intro e he hlt
        refine ⟨by simp [LRUCache.get, h, if_pos hexp], ?_, ?_⟩
        · intro hnd
          simp only [LRUCache.get, h, if_pos hexp]
          exact (storeGet_eq_none_iff _ _).mpr (not_mem_keys_storeDelete _ _ hnd)
        · simp [LRUCache.has, h, if_pos hexp]
    · have hle : now ≤ entry.expiresAt := Nat.not_lt.mp hexp
      refine ⟨?_, ?_, ?_⟩
      · intro v
        simp only [LRUCache.get, h, if_neg hexp]
        constructor
        · intro hv
          injection hv with hv'
          exact ⟨entry, rfl, hv', hle⟩
        · rintro ⟨e, he, hv, -⟩
          injection he with he'
          subst he'
          simp [hv]
      · simp only [LRUCache.has, h, if_neg hexp, true_iff]
        exact ⟨entry, rfl, hle⟩
      · intro e he hlt
        injection he with he'
        subst he'
        omega

/-- Counterexample to C4 as stated: at the boundary `now = expiresAt` the
condition `now < expiresAt` fails, yet `get` still returns the value and
`has` still reports the entry (the code expires only when
`now > expiresAt`). -/
theorem lruGet_strict_boundary_cex :
    ¬ ((1000 : Nat) < 1000)
    ∧ (LRUCache.get (⟨[("k", ⟨(0 : Nat), 1000⟩)], 50, 1000⟩ : LRUCache Nat) "k" 1000).1
        = some 0
    ∧ (LRUCache.has (⟨[("k", ⟨(0 : Nat), 1000⟩)], 50, 1000⟩ : LRUCache Nat) "k" 1000).1
        = true := by
  refine ⟨by omega, ?_, ?_⟩ <;> rfl

/-- Witness for `lruGet_visibility`: an entry expired at 100 read at 200
is deleted and invisible. -/
theorem lruGet_visibility_witness :
    (storeGet [("k", (⟨7, 100⟩ : CacheEntry Nat))] "k" = some ⟨7, 100⟩)
    ∧ ((100 : Nat) < 200)
    ∧ (LRUCache.get (⟨[("k", ⟨(7 : Nat), 100⟩)], 50, 1000⟩ : LRUCache Nat) "k" 200).2.store
        = storeDelete [("k", ⟨7, 100⟩)] "k"
    ∧ storeGet (LRUCache.get (⟨[("k", ⟨(7 : Nat), 100⟩)], 50, 1000⟩ : LRUCache Nat)
        "k" 200).2.store "k" = none
    ∧ (LRUCache.has (⟨[("k", ⟨(7 : Nat), 100⟩)], 50, 1000⟩ : LRUCache Nat) "k" 200).1
        = false := by
  have h := (lruGet_visibility (⟨[("k", ⟨(7 : Nat), 100⟩)], 50, 1000⟩ : LRUCache Nat)
    "k" 200).2.2 ⟨7, 100⟩ rfl (by decide)
  exact ⟨rfl, by decide, h.1, h.2.1 (by simp), h.2.2⟩

/-- Counterexample to C5 as stated: when the least-recently-used key is
the empty string, the falsy-key guard `if (firstKey)` in `LRUCache.set`
skips the eviction, so inserting a 4th distinct key evicts nothing and
the cache grows past `maxSize = 3`. -/
theorem lru_eviction_empty_key_cex :
    (("" : String) ≠ "b") ∧ (("" : String) ≠ "c") ∧ (("" : String) ≠ "d")
    ∧ (LRUCache.set (LRUCache.set (LRUCache.set (LRUCache.set
        (⟨[], 3, 99⟩ : LRUCache Nat) "" 1 (some 1000) 0)
        "b" 2 (some 1000) 0) "c" 3 (some 1000) 0) "d" 4 (some 1000) 0).store
      = [("", ⟨1, 1000⟩), ("b", ⟨2, 1000⟩), ("c", ⟨3, 1000⟩), ("d", ⟨4, 1000⟩)]
    ∧ (LRUCache.set (LRUCache.set (LRUCache.set (LRUCache.set
        (⟨[], 3, 99⟩ : LRUCache Nat) "" 1 (some 1000) 0)
        "b" 2 (some 1000) 0) "c" 3 (some 1000) 0) "d" 4 (some 1000) 0).store.length
      = 4 := by
  refine ⟨by decide, by decide, by decide, rfl, rfl⟩

/-- C5 (amended): with `maxSize = 3`, after inserting three distinct keys
a fourth distinct insert evicts exactly the least-recently-used entry
(`k1`) and nothing else, provided that entry's key is non-empty (the
falsy-key guard in `set` skips eviction for the empty-string key); a
successful `get` on `k1` before the fourth insert moves it to the
most-recently-used end, so the eviction falls on `k2` instead (again
provided `k2` is non-empty) and `k1` survives. -/
theorem lru_eviction {V : Type} (k1 k2 k3 k4 : String) (v1 v2 v3 v4 : V)
    (t1 t2 t3 t4 m T dflt : Nat)
    (h12 : k1 ≠ k2) (h13 : k1 ≠ k3) (h14 : k1 ≠ k4)
    (h23 : k2 ≠ k3) (h24 : k2 ≠ k4) (h34 : k3 ≠ k4)
    (hk1 : k1 ≠ "") (hk2 : k2 ≠ "")
    (hT : T ≠ 0) (hm : m ≤ t1 + T) :
    (LRUCache.set (LRUCache.set (LRUCache.set (LRUCache.set
        (⟨[], 3, dflt⟩ : LRUCache V) k1 v1 (some T) t1)
        k2 v2 (some T) t2) k3 v3 (some T) t3) k4 v4 (some T) t4).store
      = [(k2, ⟨v2, t2 + T⟩), (k3, ⟨v3, t3 + T⟩), (k4, ⟨v4, t4 + T⟩)]
    ∧ (LRUCache.get (LRUCache.set (LRUCache.set (LRUCache.set
        (⟨[], 3, dflt⟩ : LRUCache V) k1 v1 (some T) t1)
        k2 v2 (some T) t2) k3 v3 (some T) t3) k1 m).1 = some v1
    ∧ (LRUCache.set ((LRUCache.get (LRUCache.set (LRUCache.set (LRUCache.set
        (⟨[], 3, dflt⟩ : LRUCache V) k1 v1 (some T) t1)
        k2 v2 (some T) t2) k3 v3 (some T) t3) k1 m).2) k4 v4 (some T) t4).store
      = [(k3, ⟨v3, t3 + T⟩), (k1, ⟨v1, t1 + T⟩), (k4, ⟨v4, t4 + T⟩)] := by
  have hc1 : LRUCache.set (⟨[], 3, dflt⟩ : LRUCache V) k1 v1 (some T) t1
      = ⟨[(k1, ⟨v1, t1 + T⟩)], 3, dflt⟩ := by
    simp [LRUCache.set, storeHas, storeGet, ttlOrDefault, hT]
  have hc2 : LRUCache.set (⟨[(k1, ⟨v1, t1 + T⟩)], 3, dflt⟩ : LRUCache V) k2 v2 (some T) t2
      = ⟨[(k1, ⟨v1, t1 + T⟩), (k2, ⟨v2, t2 + T⟩)], 3, dflt⟩ := by
    simp [LRUCache.set, storeHas, storeGet, ttlOrDefault, hT, h12]
  have hc3 : LRUCache.set (⟨[(k1, ⟨v1, t1 + T⟩), (k2, ⟨v2, t2 + T⟩)], 3, dflt⟩ : LRUCache V)
      k3 v3 (some T) t3
      = ⟨[(k1, ⟨v1, t1 + T⟩), (k2, ⟨v2, t2 + T⟩), (k3, ⟨v3, t3 + T⟩)], 3, dflt⟩ := by
    simp [LRUCache.set, storeHas, storeGet, ttlOrDefault, hT, h13, h23]
  have hnm : ¬ (t1 + T < m) := Nat.not_lt.mpr hm
  have hget : LRUCache.get (⟨[(k1, ⟨v1, t1 + T⟩), (k2, ⟨v2, t2 + T⟩),
      (k3, ⟨v3, t3 + T⟩)], 3, dflt⟩ : LRUCache V) k1 m
      = (some v1, ⟨[(k2, ⟨v2, t2 + T⟩), (k3, ⟨v3, t3 + T⟩), (k1, ⟨v1, t1 + T⟩)], 3, dflt⟩) := by
    simp [LRUCache.get, storeGet, storeDelete, hnm]
  refine ⟨?_, ?_, ?_⟩
  · rw [hc1, hc2, hc3]
    simp [LRUCache.set, storeHas, storeGet, ttlOrDefault, evictFirst, hT, h14, h24, h34, hk1]
  · rw [hc1, hc2, hc3, hget]
  · rw [hc1, hc2, hc3, hget]
    simp [LRUCache.set, storeHas, storeGet, ttlOrDefault, evictFirst, hT, h14, h24, h34,
      Ne.symm h14, Ne.symm h24, Ne.symm h34, hk2]

/-- Witness for `lru_eviction` at the non-empty keys `a b c d`. -/
theorem lru_eviction_witness :
    ("a" ≠ "b") ∧ (("a" : String) ≠ "") ∧ (("b" : String) ≠ "") ∧ ((5 : Nat) ≤ 0 + 1000)
    ∧ (LRUCache.set (LRUCache.set (LRUCache.set (LRUCache.set
        (⟨[], 3, 99⟩ : LRUCache Nat) "a" 1 (some 1000) 0)
        "b" 2 (some 1000) 0) "c" 3 (some 1000) 0) "d" 4 (some 1000) 0).store
      = [("b", ⟨2, 1000⟩), ("c", ⟨3, 1000⟩), ("d", ⟨4, 1000⟩)]
    ∧ (LRUCache.set ((LRUCache.get (LRUCache.set (LRUCache.set (LRUCache.set
        (⟨[], 3, 99⟩ : LRUCache Nat) "a" 1 (some 1000) 0)
        "b" 2 (some 1000) 0) "c" 3 (some 1000) 0) "a" 5).2) "d" 4 (some 1000) 0).store
      = [("c", ⟨3, 1000⟩), ("a", ⟨1, 1000⟩), ("d", ⟨4, 1000⟩)] := by
  have h := lru_eviction "a" "b" "c" "d" (1 : Nat) 2 3 4 0 0 0 0 5 1000 99
    (by decide) (by decide) (by decide) (by decide) (by decide) (by decide)
    (by decide) (by decide) (by decide) (by decide)
  exact ⟨by decide, by decide, by decide, by decide, h.1, h.2.2⟩

/-! ## Cache-key theorems (claim C6) -/

theorem storeGet_map_snd {V W : Type} (f : V → W) (s : List (String × V)) (k : String) :
    storeGet (s.map (fun p => (p.1, f p.2))) k = (storeGet s k).map f := by
  induction s with
  | nil => simp [storeGet]
  | cons hd tl ih =>
    obtain ⟨k', v⟩ := hd
    by_cases h : k' = k
    · simp [storeGet, h]
    · simp [storeGet, h, ih]

/-- Looking a key up in an association list is invariant under permutation
when the keys are duplicate-free (JS object property maps). -/
theorem storeGet_perm {V : Type} {l₁ l₂ : List (String × V)} (h : l₁.Perm l₂) :
    (l₁.map Prod.fst).Nodup → ∀ k, storeGet l₁ k = storeGet l₂ k := by
  induction h with
  | nil => intro _ k; rfl
  | cons x h ih =>
    intro hnd k
    obtain ⟨kx, vx⟩ := x
    simp only [List.map_cons, List.nodup_cons] at hnd
    by_cases hk : kx = k
    · simp [storeGet, hk]
    · simp [storeGet, hk, ih hnd.2 k]
  | swap x y l =>
    intro hnd k
    obtain ⟨kx, vx⟩ := x
    obtain ⟨ky, vy⟩ := y
    simp only [List.map_cons, List.nodup_cons, List.mem_cons] at hnd
    have hxy : ky ≠ kx := fun hc => hnd.1 (Or.inl hc)
    by_cases hy : ky = k
    · have hx : kx ≠ k := fun hc => hxy (hy.trans hc.symm)
      simp [storeGet, hy, hx]
    · by_cases hx : kx = k
      · simp [storeGet, hy, hx]
      · simp [storeGet, hy, hx]
  | trans h₁ h₂ ih₁ ih₂ =>
    intro hnd k
    have hnd₂ := ((h₁.map Prod.fst).nodup_iff).mp hnd
    rw [ih₁ hnd k, ih₂ hnd₂ k]

/-- Any two permuted key lists sort to the same list (JS
`Object.keys(arg).sort()`). -/
theorem sortStrings_perm_eq {l₁ l₂ : List String} (h : l₁.Perm l₂) :
    sortStrings l₁ = sortStrings l₂ := by
  refine @List.eq_of_perm_of_sorted String (· ≤ ·) ⟨fun a b h1 h2 => le_antisymm h1 h2⟩ _ _
    ((List.perm_insertionSort _ l₁).trans (h.trans (List.perm_insertionSort _ l₂).symm))
    (List.sorted_insertionSort _ l₁) (List.sorted_insertionSort _ l₂)

/-- The object case of `jsonStringifyK` in lookup form: each key of the
property list that the object possesses is emitted with its serialized
value. -/
theorem jsonStringifyK_obj (K : List String) (fs : List (String × JVal)) :
    jsonStringifyK K (JVal.obj fs)
      = "\x7b" ++ String.intercalate ","
          (K.filterMap (fun k =>
            (storeGet fs k).map (fun v => jsonQuote k ++ ":" ++ jsonStringifyK K v)))
        ++ "\x7d" := by
  rw [jsonStringifyK]
  have hsfs : fs.attach.map (fun x => (x.1.1, jsonStringifyK K x.1.2))
      = fs.map (fun p => (p.1, jsonStringifyK K p.2)) :=
    List.attach_map_val fs (fun p => (p.1, jsonStringifyK K p.2))
  rw [hsfs]
  congr 2
  apply congrArg
  apply List.filterMap_congr
  intro k _
  rw [storeGet_map_snd]
  cases storeGet fs k <;> rfl

/-- C6: `generateCacheKey` is a pure function of its arguments, and an
object-valued argument yields a byte-identical key under any permutation
of its (duplicate-free) properties: the serialization iterates the sorted
key list and looks each key up, so property insertion order is
irrelevant. -/
theorem generateCacheKey_order_independent (pre : String) (args₁ args₂ : List JVal)
    (o₁ o₂ : List (String × JVal)) (hperm : o₁.Perm o₂)
    (hnd : (o₁.map Prod.fst).Nodup) :
    generateCacheKey pre (args₁ ++ JVal.obj o₁ :: args₂)
      = generateCacheKey pre (args₁ ++ JVal.obj o₂ :: args₂) := by
  have hK : sortStrings (o₁.map Prod.fst) = sortStrings (o₂.map Prod.fst) :=
    sortStrings_perm_eq (hperm.map Prod.fst)
  have hget : ∀ k, storeGet o₁ k = storeGet o₂ k := storeGet_perm hperm hnd
  have hser : serializeArg (JVal.obj o₁) = serializeArg (JVal.obj o₂) := by
    calc serializeArg (JVal.obj o₁)
        = jsonStringifyK (sortStrings (o₂.map Prod.fst)) (JVal.obj o₁) := by
          simp [serializeArg, jsKeys, hK]
      _ = jsonStringifyK (sortStrings (o₂.map Prod.fst)) (JVal.obj o₂) := by
          rw [jsonStringifyK_obj, jsonStringifyK_obj]
          congr 2
          apply congrArg
          apply List.filterMap_congr
          intro k _
          rw [hget k]
      _ = serializeArg (JVal.obj o₂) := by
          simp [serializeArg, jsKeys]
  simp [generateCacheKey, hser]

/-- Witness for `generateCacheKey_order_independent`: the spec's example
`buildKey("interpret", "chart1", {scope:"year", year:2024})` equals the key
for `{year:2024, scope:"year"}`. -/
theorem generateCacheKey_order_independent_witness :
    (List.Perm [("scope", JVal.str "year"), ("year", JVal.num 2024)]
      [("year", JVal.num 2024), ("scope", JVal.str "year")])
    ∧ (([("scope", JVal.str "year"), ("year", JVal.num 2024)].map
        (Prod.fst (β := JVal))).Nodup)
    ∧ generateCacheKey "interpret" [JVal.str "chart1",
        JVal.obj [("scope", JVal.str "year"), ("year", JVal.num 2024)]]
      = generateCacheKey "interpret" [JVal.str "chart1",
        JVal.obj [("year", JVal.num 2024), ("scope", JVal.str "year")]] := by
  refine ⟨List.Perm.swap _ _ _, by decide, ?_⟩
  exact generateCacheKey_order_independent "interpret" [JVal.str "chart1"] []
    [("scope", JVal.str "year"), ("year", JVal.num 2024)]
    [("year", JVal.num 2024), ("scope", JVal.str "year")]
    (List.Perm.swap _ _ _) (by decide)

/-! ## Retry executor theorems (claims C8 and C1) -/

/-- C8: `withRetry` with `maxRetries = 0` invokes the operation exactly
once and returns that attempt's outcome (rethrowing its error on failure);
and for any `maxRetries`, a first failure classified non-retryable is
rethrown after exactly one invocation. -/
theorem withRetry_termination :
    (∀ (A : Type) (ops : Nat → AttemptOutcome A),
      withRetry 0 ops = (observeAttempt (ops 0), 1))
    ∧ (∀ (A : Type) (maxRetries : Nat) (ops : Nat → AttemptOutcome A) (e : JsError),
        observeAttempt (ops 0) = .error e → isRetryableError e = false →
        withRetry maxRetries ops = (.error e, 1)) := by
  constructor
  · intro A ops
    cases h : observeAttempt (ops 0) <;> simp [withRetry, withRetryAux, h]
  · intro A maxRetries ops e he hr
    cases maxRetries with
    | zero => simp [withRetry, withRetryAux, he]
    | succ r => simp [withRetry, withRetryAux, he, hr]

/-- Witness for `withRetry_termination`: a 400 `APIError` with
`retryable = false` is thrown after one invocation even with
`maxRetries = 3`, and `maxRetries = 0` makes a single successful call. -/
theorem withRetry_termination_witness :
    (observeAttempt ((fun _ => AttemptOutcome.fail (A := Nat)
        (.apiError "Bad Request" 400 none false)) 0)
      = Except.error (.apiError "Bad Request" 400 none false))
    ∧ isRetryableError (.apiError "Bad Request" 400 none false) = false
    ∧ withRetry 3 (fun _ => AttemptOutcome.fail (A := Nat)
        (.apiError "Bad Request" 400 none false))
      = (Except.error (.apiError "Bad Request" 400 none false), 1)
    ∧ withRetry 0 (fun _ => AttemptOutcome.ok (42 : Nat)) = (Except.ok 42, 1) := by
  refine ⟨rfl, rfl, ?_, ?_⟩
  · exact withRetry_termination.2 Nat 3 _ _ rfl rfl
  · exact withRetry_termination.1 Nat _

/-- Counterexample to C1 as stated: with retry budget remaining
(`maxRetries = 1`, attempt index 0), a timed-out attempt is *not* followed
by a further attempt — the race rejects with a plain `Error('請求超時')`,
which `isRetryableError` classifies as non-retryable, so `withRetry`
rethrows after exactly one invocation. -/
theorem withRetry_timeout_cex :
    isRetryableError (JsError.plainError "請求超時") = false
    ∧ withRetry 1 (fun _ => AttemptOutcome.timeout (A := Nat))
        = (Except.error (JsError.plainError "請求超時"), 1) :=
  ⟨rfl, rfl⟩

/-- C1 (amended): each attempt of `withRetry` is raced against the timer,
but when the timer fires first the failure is a plain `Error('請求超時')`
that `isRetryableError` rejects, so for every configuration — even with
retry budget remaining — the timeout is rethrown immediately after a
single invocation instead of being retried. -/
theorem withRetry_timeout_aborts (A : Type) (maxRetries : Nat)
    (ops : Nat → AttemptOutcome A) (h : ops 0 = .timeout) :
    withRetry maxRetries ops = (.error (.plainError "請求超時"), 1) := by
  cases maxRetries with
  | zero => simp [withRetry, withRetryAux, h, observeAttempt]
  | succ r => simp [withRetry, withRetryAux, h, observeAttempt, isRetryableError]

/-- Witness for `withRetry_timeout_aborts` at `maxRetries = 3`. -/
theorem withRetry_timeout_aborts_witness :
    ((fun _ => AttemptOutcome.timeout (A := Nat)) 0 = AttemptOutcome.timeout)
    ∧ withRetry 3 (fun _ => AttemptOutcome.timeout (A := Nat))
        = (Except.error (JsError.plainError "請求超時"), 1) :=
  ⟨rfl, withRetry_timeout_aborts Nat 3 _ rfl⟩

/-! ## Fallback orchestration theorems (claim C7) -/

theorem buildModelChain_decomp (p : String) (fbs : List String) :
    ∃ t, buildModelChain p fbs = p :: t ∧ t.Sublist fbs := by
  suffices h : ∀ (l acc : List String),
      ∃ t, l.foldl (fun ms m => if m ∈ ms then ms else ms ++ [m]) acc = acc ++ t
        ∧ t.Sublist l by
    obtain ⟨t, ht, hs⟩ := h fbs [p]
    exact ⟨t, by simpa [buildModelChain] using ht, hs⟩
  intro l
  induction l with
  | nil => intro acc; exact ⟨[], by simp, by simp⟩
  | cons m rest ih =>
    intro acc
    by_cases hm : m ∈ acc
    · obtain ⟨t, ht, hs⟩ := ih acc
      exact ⟨t, by simp [hm, ht], List.Sublist.cons m hs⟩
    · obtain ⟨t, ht, hs⟩ := ih (acc ++ [m])
      refine ⟨m :: t, ?_, List.Sublist.cons₂ m hs⟩
      simp only [List.foldl_cons, if_neg hm, ht, List.append_assoc, List.singleton_append]

theorem buildModelChain_nodup (p : String) (fbs : List String) :
    (buildModelChain p fbs).Nodup := by
  suffices h : ∀ (l acc : List String), acc.Nodup →
      (l.foldl (fun ms m => if m ∈ ms then ms else ms ++ [m]) acc).Nodup by
    exact h fbs [p] (by simp)
  intro l
  induction l with
  | nil => intro acc h; simpa using h
  | cons m rest ih =>
    intro acc h
    by_cases hm : m ∈ acc
    · simpa [hm] using ih acc h
    · have hnd : (acc ++ [m]).Nodup := by
        rw [List.nodup_append]
        exact ⟨h, List.nodup_singleton m, by simpa [List.disjoint_singleton] using hm⟩
      simpa [hm] using ih _ hnd

theorem mem_buildModelChain (p : String) (fbs : List String) (x : String) :
    x ∈ buildModelChain p fbs ↔ x ∈ p :: fbs := by
  constructor
  · intro hx
    obtain ⟨t, ht, hs⟩ := buildModelChain_decomp p fbs
    rw [ht] at hx
    rcases List.mem_cons.mp hx with hx | hx
    · simp [hx]
    · exact List.mem_cons_of_mem _ (hs.subset hx)
  · intro hx
    suffices h : ∀ (l acc : List String), (x ∈ acc ∨ x ∈ l) →
        x ∈ l.foldl (fun ms m => if m ∈ ms then ms else ms ++ [m]) acc by
      apply h fbs [p]
      simpa using List.mem_cons.mp hx
    intro l
    induction l with
    | nil => intro acc h; simpa using h.resolve_right (by simp)
    | cons m rest ih =>
      intro acc h
      by_cases hm : m ∈ acc
      · simp only [List.foldl_cons, if_pos hm]
        apply ih
        rcases h with h | h
        · exact Or.inl h
        · rcases List.mem_cons.mp h with h | h
          · exact Or.inl (h ▸ hm)
          · exact Or.inr h
      · simp only [List.foldl_cons, if_neg hm]
        apply ih
        rcases h with h | h
        · exact Or.inl (by simp [h])
        · rcases List.mem_cons.mp h with h | h
          · exact Or.inl (by simp [h])
          · exact Or.inr h

theorem runModels_tried_sublist {E A : Type} (call : String → Except E A) :
    ∀ (ms : List String) (le : Option E), (runModels call ms le).2.Sublist ms := by
  intro ms
  induction ms with
  | nil => intro le; simp [runModels]
  | cons m rest ih =>
    intro le
    cases h : call m with
    | ok a => simp [runModels, h]
    | error e => simpa [runModels, h] using List.Sublist.cons₂ m (ih (some e))

theorem runModels_success {E A : Type} (call : String → Except E A) :
    ∀ (ms₁ : List String) (m : String) (ms₂ : List String) (a : A) (le : Option E),
      (∀ x ∈ ms₁, ∃ e, call x = .error e) → call m = .ok a →
      runModels call (ms₁ ++ m :: ms₂) le = (.ok a, ms₁ ++ [m]) := by
  intro ms₁
  induction ms₁ with
  | nil =>
    intro m ms₂ a le _ hm
    simp [runModels, hm]
  | cons x rest ih =>
    intro m ms₂ a le hfail hm
    obtain ⟨e, he⟩ := hfail x (by simp)
    have hrec := ih m ms₂ a (some e) (fun y hy => hfail y (by simp [hy])) hm
    simp [runModels, he, hrec]

theorem runModels_allFail {E A : Type} (call : String → Except E A) :
    ∀ (L : List String) (m' : String) (e' : E) (le : Option E),
      (∀ x ∈ L, ∃ e, call x = .error e) → call m' = .error e' →
      runModels call (L ++ [m']) le = (.error (some e'), L ++ [m']) := by
  intro L
  induction L with
  | nil =>
    intro m' e' le _ hm
    simp [runModels, hm]
  | cons x rest ih =>
    intro m' e' le hfail hm
    obtain ⟨e, he⟩ := hfail x (by simp)
    have hrec := ih m' e' (some e) (fun y hy => hfail y (by simp [hy])) hm
    simp [runModels, he, hrec]

/-- C7: `callOpenAIWithFallback` builds the chain as the preferred model
followed by the fallbacks not already present — starting with the
preferred model, duplicate-free, preserving order (a sublist of
`preferred :: fallbacks`) and dropping nothing; it only ever invokes
models of that chain, in order; the first model whose retried call
succeeds ends the run without invoking later models; every failure
(of any error class) moves on to the next model; and when the whole chain
fails it throws the last recorded error. -/
theorem callOpenAIWithFallback_spec (p : String) (fbs : List String)
    (ops : String → Nat → AttemptOutcome String) :
    (∃ rest, buildModelChain p fbs = p :: rest)
    ∧ (buildModelChain p fbs).Nodup
    ∧ (buildModelChain p fbs).Sublist (p :: fbs)
    ∧ (∀ x, x ∈ buildModelChain p fbs ↔ x ∈ p :: fbs)
    ∧ (callOpenAIWithFallback ops p).2.Sublist (buildModelChain p MODEL_FALLBACK_ORDER)
    ∧ (∀ ms₁ m ms₂ a, buildModelChain p MODEL_FALLBACK_ORDER = ms₁ ++ m :: ms₂ →
        (∀ x ∈ ms₁, ∃ e, (withRetry 2 (ops x)).1 = .error e) →
        (withRetry 2 (ops m)).1 = .ok a →
        callOpenAIWithFallback ops p = (.ok a, ms₁ ++ [m]))
    ∧ (∀ L m' e', buildModelChain p MODEL_FALLBACK_ORDER = L ++ [m'] →
        (∀ x ∈ L, ∃ e, (withRetry 2 (ops x)).1 = .error e) →
        (withRetry 2 (ops m')).1 = .error e' →
        callOpenAIWithFallback ops p = (.error (some e'), L ++ [m'])) := by
  obtain ⟨t, ht, hs⟩ := buildModelChain_decomp p fbs
  refine ⟨⟨t, ht⟩, buildModelChain_nodup p fbs, ?_, mem_buildModelChain p fbs,
    runModels_tried_sublist _ _ _, ?_, ?_⟩
  · rw [ht]
    exact List.Sublist.cons₂ p hs
  · intro ms₁ m ms₂ a hchain hfail hm
    simp only [callOpenAIWithFallback, hchain]
    exact runModels_success _ ms₁ m ms₂ a none hfail hm
  · intro L m' e' hchain hfail hm
    simp only [callOpenAIWithFallback, hchain]
    exact runModels_allFail _ L m' e' none hfail hm

/-- Witness for `callOpenAIWithFallback_spec`: preferred `gpt-4o` hits a
rate limit on every retried attempt, the first fallback `gpt-4o-mini`
succeeds, the chain stops there. -/
theorem callOpenAIWithFallback_spec_witness :
    (buildModelChain "gpt-4o" MODEL_FALLBACK_ORDER
      = ["gpt-4o"] ++ "gpt-4o-mini" :: ["gpt-3.5-turbo"])
    ∧ (withRetry 2 ((fun m _ => if m = "gpt-4o"
          then AttemptOutcome.fail (.rateLimitError 60)
          else AttemptOutcome.ok "text") "gpt-4o")).1
        = Except.error (JsError.rateLimitError 60)
    ∧ (withRetry 2 ((fun m _ => if m = "gpt-4o"
          then AttemptOutcome.fail (.rateLimitError 60)
          else AttemptOutcome.ok "text") "gpt-4o-mini")).1 = Except.ok "text"
    ∧ callOpenAIWithFallback (fun m _ => if m = "gpt-4o"
          then AttemptOutcome.fail (.rateLimitError 60)
          else AttemptOutcome.ok "text") "gpt-4o"
        = (Except.ok "text", ["gpt-4o"] ++ ["gpt-4o-mini"]) := by
  refine ⟨by decide, rfl, rfl, ?_⟩
  exact (callOpenAIWithFallback_spec "gpt-4o" MODEL_FALLBACK_ORDER _).2.2.2.2.2.1
    ["gpt-4o"] "gpt-4o-mini" ["gpt-3.5-turbo"] "text" (by decide)
    (by
      intro x hx
      have hx' : x = "gpt-4o" := by simpa using hx
      subst hx'
      exact ⟨JsError.rateLimitError 60, rfl⟩)
    rfl

/-! ## Route-level lemmas -/

theorem storeDelete_sublist {V : Type} (s : List (String × V)) (k : String) :
    (storeDelete s k).Sublist s := by
  induction s with
  | nil => simp [storeDelete]
  | cons hd tl ih =>
    obtain ⟨k', v⟩ := hd
    by_cases h : k' = k
    · simp [storeDelete, h]
    · simpa [storeDelete, h] using List.Sublist.cons₂ (k', v) ih

theorem storeGet_append_of_none {V : Type} (s t : List (String × V)) (k : String)
    (h : storeGet s k = none) : storeGet (s ++ t) k = storeGet t k := by
  induction s with
  | nil => simp
  | cons hd tl ih =>
    obtain ⟨k', v⟩ := hd
    by_cases hk : k' = k
    · simp [storeGet, hk] at h
    · simp only [storeGet, if_neg hk] at h
      simpa [storeGet, hk] using ih h

theorem lruGet_nodup {V : Type} (c : LRUCache V) (k : String) (now : Nat)
    (hnd : (c.store.map Prod.fst).Nodup) :
    (((LRUCache.get c k now).2).store.map Prod.fst).Nodup := by
  cases h : storeGet c.store k with
  | none => simpa [LRUCache.get, h] using hnd
  | some e =>
    have hdel : ((storeDelete c.store k).map Prod.fst).Nodup :=
      List.Nodup.sublist ((storeDelete_sublist c.store k).map Prod.fst) hnd
    by_cases hexp : e.expiresAt < now
    · simpa [LRUCache.get, h, if_pos hexp] using hdel
    · simp only [LRUCache.get, h, if_neg hexp, List.map_append, List.map_cons,
        List.map_nil]
      rw [List.nodup_append]
      exact ⟨hdel, List.nodup_singleton _,
        by simpa [List.disjoint_singleton] using not_mem_keys_storeDelete c.store k hnd⟩

theorem lruGet_hit {V : Type} (c : LRUCache V) (k : String) (now : Nat) (v : V)
    (exp : Nat) (h : storeGet c.store k = some ⟨v, exp⟩) (hle : now ≤ exp) :
    (LRUCache.get c k now).1 = some v := by
  have hnl : ¬ exp < now := Nat.not_lt.mpr hle
  simp [LRUCache.get, h, hnl]

theorem evictFirst_sublist {V : Type} (s : List (String × V)) :
    (evictFirst s).Sublist s := by
  cases s with
  | nil => simp [evictFirst]
  | cons hd tl =>
    obtain ⟨k, v⟩ := hd
    by_cases h : k = ""
    · simp [evictFirst, h]
    · simp [evictFirst, h]

theorem storeGet_lruSet_self {V : Type} (c : LRUCache V) (k : String) (v : V)
    (T now : Nat) (hnd : (c.store.map Prod.fst).Nodup) (hT : T ≠ 0) :
    storeGet (LRUCache.set c k v (some T) now).store k = some ⟨v, now + T⟩ := by
  have hs₁ : k ∉ ((if storeHas c.store k then storeDelete c.store k else c.store).map
      Prod.fst) := by
    by_cases hh : storeHas c.store k
    · simpa [hh] using not_mem_keys_storeDelete c.store k hnd
    · have hgn : storeGet c.store k = none := by
        simpa [storeHas, Option.not_isSome_iff_eq_none] using hh
      simpa [hh] using (storeGet_eq_none_iff c.store k).mp hgn
  have hs₂ : k ∉ ((if c.maxSize ≤
      (if storeHas c.store k then storeDelete c.store k else c.store).length
      then evictFirst (if storeHas c.store k then storeDelete c.store k else c.store)
      else (if storeHas c.store k then storeDelete c.store k else c.store)).map
      Prod.fst) := by
    intro hc
    apply hs₁
    by_cases hcap : c.maxSize ≤
        (if storeHas c.store k then storeDelete c.store k else c.store).length
    · rw [if_pos hcap] at hc
      exact ((evictFirst_sublist _).map Prod.fst).subset hc
    · rwa [if_neg hcap] at hc
  have hget : storeGet ((if c.maxSize ≤
      (if storeHas c.store k then storeDelete c.store k else c.store).length
      then evictFirst (if storeHas c.store k then storeDelete c.store k else c.store)
      else (if storeHas c.store k then storeDelete c.store k else c.store))) k
      = none := (storeGet_eq_none_iff _ k).mpr hs₂
  simp only [LRUCache.set]
  rw [storeGet_append_of_none _ _ _ hget]
  simp [storeGet, ttlOrDefault, hT]

/-- The compute branch: admission passed, memory miss, no persistent hit —
the route answers `llm`, stores the result in the memory cache with the
5-minute TTL, invokes `callLLM` once and fires the Supabase save exactly
when Supabase is configured. -/
theorem interpretPOST_compute (cache : LRUCache InterpretResult)
    (rate : RateLimitResult) (a : AstrolabeIn) (fortune : Option FortuneIn)
    (sbConf : Bool) (llmRes : InterpretResult) (now : Nat)
    (hallow : rate.allowed = true)
    (hmiss : (LRUCache.get cache (buildInterpretCacheKey a fortune) now).1 = none) :
    interpretPOST cache rate (some (a, fortune)) sbConf none llmRes now
      = ⟨.okJson llmRes .llm rate.remaining rate.resetTime,
         LRUCache.set (LRUCache.get cache (buildInterpretCacheKey a fortune) now).2
           (buildInterpretCacheKey a fortune) llmRes (some (5 * 60 * 1000)) now,
         1, sbConf⟩ := by
  simp [interpretPOST, hallow, hmiss]

/-- The memory-hit branch: the route answers `memory` without consulting
Supabase or `callLLM`. -/
theorem interpretPOST_memory (cache : LRUCache InterpretResult)
    (rate : RateLimitResult) (a : AstrolabeIn) (fortune : Option FortuneIn)
    (sbConf : Bool) (sbCached : Option InterpretResult)
    (llmRes r : InterpretResult) (now : Nat)
    (hallow : rate.allowed = true)
    (hhit : (LRUCache.get cache (buildInterpretCacheKey a fortune) now).1 = some r) :
    interpretPOST cache rate (some (a, fortune)) sbConf sbCached llmRes now
      = ⟨.okJson r .memory rate.remaining rate.resetTime,
         (LRUCache.get cache (buildInterpretCacheKey a fortune) now).2, 0, false⟩ := by
  simp [interpretPOST, hallow, hhit]

/-- Shared scenario: a first request that misses both cache tiers computes
and back-fills, a second identical request within the memory TTL is served
from memory with zero further `callLLM` invocations. -/
theorem interpretPOST_compute_then_memory (cache : LRUCache InterpretResult)
    (rate rate₂ : RateLimitResult) (a : AstrolabeIn) (fortune : Option FortuneIn)
    (sbConf sbConf₂ : Bool) (sbCached₂ : Option InterpretResult)
    (llmRes llm₂ : InterpretResult) (now now₂ : Nat)
    (hallow : rate.allowed = true) (hallow₂ : rate₂.allowed = true)
    (hnd : (cache.store.map Prod.fst).Nodup)
    (hmiss : (LRUCache.get cache (buildInterpretCacheKey a fortune) now).1 = none)
    (hwin : now₂ ≤ now + 5 * 60 * 1000) :
    (interpretPOST cache rate (some (a, fortune)) sbConf none llmRes now).response
      = .okJson llmRes .llm rate.remaining rate.resetTime
    ∧ (interpretPOST cache rate (some (a, fortune)) sbConf none llmRes now).llmCalls = 1
    ∧ (interpretPOST cache rate (some (a, fortune)) sbConf none llmRes now).supabaseSaved
        = sbConf
    ∧ storeGet (interpretPOST cache rate (some (a, fortune)) sbConf none
          llmRes now).cache.store (buildInterpretCacheKey a fortune)
        = some ⟨llmRes, now + 5 * 60 * 1000⟩
    ∧ (interpretPOST (interpretPOST cache rate (some (a, fortune)) sbConf none
          llmRes now).cache rate₂ (some (a, fortune)) sbConf₂ sbCached₂ llm₂ now₂).response
        = .okJson llmRes .memory rate₂.remaining rate₂.resetTime
    ∧ (interpretPOST (interpretPOST cache rate (some (a, fortune)) sbConf none
          llmRes now).cache rate₂ (some (a, fortune)) sbConf₂ sbCached₂ llm₂ now₂).llmCalls
        = 0 := by
  have h1 := interpretPOST_compute cache rate a fortune sbConf llmRes now hallow hmiss
  have hnd₁ : ((((LRUCache.get cache (buildInterpretCacheKey a fortune) now).2).store.map
      Prod.fst)).Nodup := lruGet_nodup cache _ now hnd
  have hset : storeGet (LRUCache.set
      (LRUCache.get cache (buildInterpretCacheKey a fortune) now).2
      (buildInterpretCacheKey a fortune) llmRes (some (5 * 60 * 1000)) now).store
      (buildInterpretCacheKey a fortune)
      = some ⟨llmRes, now + 5 * 60 * 1000⟩ :=
    storeGet_lruSet_self _ _ _ _ _ hnd₁ (by norm_num)
  have hcache : (interpretPOST cache rate (some (a, fortune)) sbConf none
      llmRes now).cache = LRUCache.set
        (LRUCache.get cache (buildInterpretCacheKey a fortune) now).2
        (buildInterpretCacheKey a fortune) llmRes (some (5 * 60 * 1000)) now := by
    rw [h1]
  have hhit : (LRUCache.get (interpretPOST cache rate (some (a, fortune)) sbConf none
      llmRes now).cache (buildInterpretCacheKey a fortune) now₂).1 = some llmRes := by
    rw [hcache]
    exact lruGet_hit _ _ _ _ _ hset hwin
  have h2 := interpretPOST_memory _ rate₂ a fortune sbConf₂ sbCached₂ llm₂ llmRes now₂
    hallow₂ hhit
  refine ⟨by rw [h1], by rw [h1], by rw [h1], ?_, by rw [h2], by rw [h2]⟩
  rw [hcache]
  exact hset

/-! ## Tiered-flow theorem (claim C9) -/

/-- C9: with admission passed, memory and persistent tiers both missing,
the route computes: it responds from the `llm` tier (the spec's
`'computed'`), invokes the narrative backend exactly once and fills the
memory cache with a 5-minute TTL; a second identical request within that
TTL responds from the `memory` tier with zero additional backend calls,
whatever the second request's persistent tier would say. -/
theorem interpret_tiered_flow (cache : LRUCache InterpretResult)
    (rate rate₂ : RateLimitResult) (a : AstrolabeIn) (fortune : Option FortuneIn)
    (sbConf sbConf₂ : Bool) (sbCached₂ : Option InterpretResult)
    (llmRes llm₂ : InterpretResult) (now now₂ : Nat)
    (hallow : rate.allowed = true) (hallow₂ : rate₂.allowed = true)
    (hnd : (cache.store.map Prod.fst).Nodup)
    (hmiss : (LRUCache.get cache (buildInterpretCacheKey a fortune) now).1 = none)
    (hwin : now₂ ≤ now + 5 * 60 * 1000) :
    (interpretPOST cache rate (some (a, fortune)) sbConf none llmRes now).response
      = .okJson llmRes .llm rate.remaining rate.resetTime
    ∧ specSourceName .llm = "computed"
    ∧ (interpretPOST cache rate (some (a, fortune)) sbConf none llmRes now).llmCalls = 1
    ∧ storeGet (interpretPOST cache rate (some (a, fortune)) sbConf none
          llmRes now).cache.store (buildInterpretCacheKey a fortune)
        = some ⟨llmRes, now + 5 * 60 * 1000⟩
    ∧ (interpretPOST (interpretPOST cache rate (some (a, fortune)) sbConf none
          llmRes now).cache rate₂ (some (a, fortune)) sbConf₂ sbCached₂ llm₂ now₂).response
        = .okJson llmRes .memory rate₂.remaining rate₂.resetTime
    ∧ specSourceName .memory = "memory"
    ∧ (interpretPOST (interpretPOST cache rate (some (a, fortune)) sbConf none
          llmRes now).cache rate₂ (some (a, fortune)) sbConf₂ sbCached₂ llm₂ now₂).llmCalls
        = 0 := by
  obtain ⟨h1, h2, h3, h4, h5, h6⟩ := interpretPOST_compute_then_memory cache rate rate₂
    a fortune sbConf sbConf₂ sbCached₂ llmRes llm₂ now now₂ hallow hallow₂ hnd hmiss hwin
  exact ⟨h1, rfl, h2, h4, h5, rfl, h6⟩

/-- Witness for `interpret_tiered_flow`: empty cache, natal request for
`chart1`, second request 1000 ms later. -/
theorem interpret_tiered_flow_witness :
    ((⟨true, 9, 60000, none⟩ : RateLimitResult).allowed = true)
    ∧ ((LRUCache.get (⟨[], 50, 300000⟩ : LRUCache InterpretResult)
        (buildInterpretCacheKey ⟨"chart1"⟩ none) 0).1 = none)
    ∧ (interpretPOST (⟨[], 50, 300000⟩ : LRUCache InterpretResult)
        ⟨true, 9, 60000, none⟩ (some (⟨"chart1"⟩, none)) false none
        (getDefaultResult none) 0).response
      = .okJson (getDefaultResult none) .llm 9 60000
    ∧ (interpretPOST (interpretPOST (⟨[], 50, 300000⟩ : LRUCache InterpretResult)
        ⟨true, 9, 60000, none⟩ (some (⟨"chart1"⟩, none)) false none
        (getDefaultResult none) 0).cache
        ⟨true, 8, 60000, none⟩ (some (⟨"chart1"⟩, none)) true
        (some (getDefaultResult (some "other"))) (getDefaultResult (some "other"))
        1000).response
      = .okJson (getDefaultResult none) .memory 8 60000 := by
  have h := interpret_tiered_flow (⟨[], 50, 300000⟩ : LRUCache InterpretResult)
    ⟨true, 9, 60000, none⟩ ⟨true, 8, 60000, none⟩ ⟨"chart1"⟩ none false true
    (some (getDefaultResult (some "other"))) (getDefaultResult none)
    (getDefaultResult (some "other")) 0 1000
    rfl rfl (by simp) rfl (by norm_num)
  exact ⟨rfl, rfl, h.1, h.2.2.2.2.1⟩

/-! ## `callLLM` failure theorems (claims C10 and C3) -/

theorem append_ne_empty_left (s t : String) (h : s ≠ "") : s ++ t ≠ "" := by
  obtain ⟨d⟩ := s
  intro hc
  apply h
  have hd := congrArg String.data hc
  rw [String.data_append] at hd
  have hnil : d = [] := (List.append_eq_nil.mp hd).1
  rw [hnil]

theorem llmErrorDefaultMsg_ne_empty (e : JsError) : llmErrorDefaultMsg e ≠ "" := by
  cases e with
  | rateLimitError r =>
    simp only [llmErrorDefaultMsg]
    decide
  | apiError m st code r =>
    simp only [llmErrorDefaultMsg]
    apply append_ne_empty_left
    apply append_ne_empty_left
    decide
  | retryableError m st r =>
    simp only [llmErrorDefaultMsg]
    split <;> decide
  | typeError m =>
    simp only [llmErrorDefaultMsg]
    split <;> decide
  | plainError m =>
    simp only [llmErrorDefaultMsg]
    split <;> decide

/-- The twelve palace texts and the summary of an `InterpretResult`. -/
def allTextFields (r : InterpretResult) : List String :=
  [r.life, r.siblings, r.marriage, r.children, r.wealth, r.health, r.travel,
   r.friends, r.career, r.property, r.fortune, r.parents, r.summary]

/-- C10: `callLLM` is a total function (it never rejects); on every
failure — missing API key, a thrown error from the model chain (timeout,
rate limit, exhaustion), or even the degenerate empty-chain throw — it
returns `getDefaultResult` of a non-empty message, so all twelve palace
fields and the summary are non-empty; the route then stores this default
result in the memory cache with the same 5-minute TTL and fires the
best-effort Supabase save exactly as for a genuine result, and an
identical request within the TTL is served the error text from the memory
cache without invoking the backend again. -/
theorem callLLM_default_on_failure_cached (parse : String → InterpretResult)
    (apiKey : String) (fallbackOutcome : Except (Option JsError) String)
    (cache : LRUCache InterpretResult) (rate rate₂ : RateLimitResult)
    (a : AstrolabeIn) (fortune : Option FortuneIn)
    (sbConf sbConf₂ : Bool) (sbCached₂ : Option InterpretResult)
    (llm₂ : InterpretResult) (now now₂ : Nat)
    (hfail : apiKey = "" ∨ ∃ le, fallbackOutcome = .error le)
    (hallow : rate.allowed = true) (hallow₂ : rate₂.allowed = true)
    (hnd : (cache.store.map Prod.fst).Nodup)
    (hmiss : (LRUCache.get cache (buildInterpretCacheKey a fortune) now).1 = none)
    (hwin : now₂ ≤ now + 5 * 60 * 1000) :
    ∃ msg, msg ≠ ""
      ∧ callLLM parse apiKey fallbackOutcome = getDefaultResult (some msg)
      ∧ (∀ s ∈ allTextFields (callLLM parse apiKey fallbackOutcome), s ≠ "")
      ∧ (interpretPOST cache rate (some (a, fortune)) sbConf none
          (callLLM parse apiKey fallbackOutcome) now).supabaseSaved = sbConf
      ∧ storeGet (interpretPOST cache rate (some (a, fortune)) sbConf none
            (callLLM parse apiKey fallbackOutcome) now).cache.store
            (buildInterpretCacheKey a fortune)
          = some ⟨getDefaultResult (some msg), now + 5 * 60 * 1000⟩
      ∧ (interpretPOST (interpretPOST cache rate (some (a, fortune)) sbConf none
            (callLLM parse apiKey fallbackOutcome) now).cache rate₂
            (some (a, fortune)) sbConf₂ sbCached₂ llm₂ now₂).response
          = .okJson (getDefaultResult (some msg)) .memory rate₂.remaining rate₂.resetTime
      ∧ (interpretPOST (interpretPOST cache rate (some (a, fortune)) sbConf none
            (callLLM parse apiKey fallbackOutcome) now).cache rate₂
            (some (a, fortune)) sbConf₂ sbCached₂ llm₂ now₂).llmCalls = 0 := by
  have key : ∀ msg, msg ≠ "" →
      callLLM parse apiKey fallbackOutcome = getDefaultResult (some msg) →
      ∃ msg, msg ≠ ""
        ∧ callLLM parse apiKey fallbackOutcome = getDefaultResult (some msg)
        ∧ (∀ s ∈ allTextFields (callLLM parse apiKey fallbackOutcome), s ≠ "")
        ∧ (interpretPOST cache rate (some (a, fortune)) sbConf none
            (callLLM parse apiKey fallbackOutcome) now).supabaseSaved = sbConf
        ∧ storeGet (interpretPOST cache rate (some (a, fortune)) sbConf none
              (callLLM parse apiKey fallbackOutcome) now).cache.store
              (buildInterpretCacheKey a fortune)
            = some ⟨getDefaultResult (some msg), now + 5 * 60 * 1000⟩
        ∧ (interpretPOST (interpretPOST cache rate (some (a, fortune)) sbConf none
              (callLLM parse apiKey fallbackOutcome) now).cache rate₂
              (some (a, fortune)) sbConf₂ sbCached₂ llm₂ now₂).response
            = .okJson (getDefaultResult (some msg)) .memory rate₂.remaining rate₂.resetTime
        ∧ (interpretPOST (interpretPOST cache rate (some (a, fortune)) sbConf none
              (callLLM parse apiKey fallbackOutcome) now).cache rate₂
              (some (a, fortune)) sbConf₂ sbCached₂ llm₂ now₂).llmCalls = 0 := by
    intro msg hne hcall
    obtain ⟨hr1, hr2, hr3, hr4, hr5, hr6⟩ := interpretPOST_compute_then_memory cache
      rate rate₂ a fortune sbConf sbConf₂ sbCached₂
      (callLLM parse apiKey fallbackOutcome) llm₂ now now₂ hallow hallow₂ hnd hmiss hwin
    refine ⟨msg, hne, hcall, ?_, hr3, ?_, ?_, hr6⟩
    · intro s hs
      rw [hcall] at hs
      have hrep : allTextFields (getDefaultResult (some msg)) = List.replicate 13 msg := by
        simp [allTextFields, getDefaultResult, hne, List.replicate]
      rw [hrep] at hs
      rw [List.eq_of_mem_replicate hs]
      exact hne
    · rw [hcall] at hr4
      rw [hcall]
      exact hr4
    · rw [hcall] at hr5
      rw [hcall]
      exact hr5
  by_cases hk : apiKey = ""
  · exact key "API 金鑰未設定，請聯繫管理員" (by decide) (by simp [callLLM, hk])
  · obtain ⟨le, hle⟩ := hfail.resolve_left hk
    cases le with
    | some e =>
      exact key (llmErrorDefaultMsg e) (llmErrorDefaultMsg_ne_empty e)
        (by simp [callLLM, hk, hle])
    | none =>
      exact key "無法連接 AI 服務，請檢查網路連線" (by decide) (by simp [callLLM, hk, hle])

/-- Witness for `callLLM_default_on_failure_cached`: the chain throws a
`RateLimitError`; the busy-message default result is cached and served to
the identical second request. -/
theorem callLLM_default_on_failure_cached_witness :
    (("sk" : String) = "" ∨ ∃ le, (Except.error (some (JsError.rateLimitError 60)) :
        Except (Option JsError) String) = .error le)
    ∧ ((LRUCache.get (⟨[], 50, 300000⟩ : LRUCache InterpretResult)
        (buildInterpretCacheKey ⟨"chart1"⟩ none) 0).1 = none)
    ∧ (∃ msg, msg ≠ ""
        ∧ callLLM (fun _ => getDefaultResult none) "sk"
            (Except.error (some (JsError.rateLimitError 60))) = getDefaultResult (some msg)
        ∧ (∀ s ∈ allTextFields (callLLM (fun _ => getDefaultResult none) "sk"
            (Except.error (some (JsError.rateLimitError 60)))), s ≠ "")
        ∧ (interpretPOST (⟨[], 50, 300000⟩ : LRUCache InterpretResult)
            ⟨true, 9, 60000, none⟩ (some (⟨"chart1"⟩, none)) true none
            (callLLM (fun _ => getDefaultResult none) "sk"
              (Except.error (some (JsError.rateLimitError 60)))) 0).supabaseSaved = true
        ∧ storeGet (interpretPOST (⟨[], 50, 300000⟩ : LRUCache InterpretResult)
              ⟨true, 9, 60000, none⟩ (some (⟨"chart1"⟩, none)) true none
              (callLLM (fun _ => getDefaultResult none) "sk"
                (Except.error (some (JsError.rateLimitError 60)))) 0).cache.store
              (buildInterpretCacheKey ⟨"chart1"⟩ none)
            = some ⟨getDefaultResult (some msg), 0 + 5 * 60 * 1000⟩
        ∧ (interpretPOST (interpretPOST (⟨[], 50, 300000⟩ : LRUCache InterpretResult)
              ⟨true, 9, 60000, none⟩ (some (⟨"chart1"⟩, none)) true none
              (callLLM (fun _ => getDefaultResult none) "sk"
                (Except.error (some (JsError.rateLimitError 60)))) 0).cache
              ⟨true, 8, 60000, none⟩ (some (⟨"chart1"⟩, none)) true none
              (getDefaultResult none) 1000).response
            = .okJson (getDefaultResult (some msg)) .memory 8 60000
        ∧ (interpretPOST (interpretPOST (⟨[], 50, 300000⟩ : LRUCache InterpretResult)
              ⟨true, 9, 60000, none⟩ (some (⟨"chart1"⟩, none)) true none
              (callLLM (fun _ => getDefaultResult none) "sk"
                (Except.error (some (JsError.rateLimitError 60)))) 0).cache
              ⟨true, 8, 60000, none⟩ (some (⟨"chart1"⟩, none)) true none
              (getDefaultResult none) 1000).llmCalls = 0) := by
  refine ⟨Or.inr ⟨some (JsError.rateLimitError 60), rfl⟩, rfl, ?_⟩
  exact callLLM_default_on_failure_cached (fun _ => getDefaultResult none) "sk"
    (Except.error (some (JsError.rateLimitError 60)))
    (⟨[], 50, 300000⟩ : LRUCache InterpretResult) ⟨true, 9, 60000, none⟩
    ⟨true, 8, 60000, none⟩ ⟨"chart1"⟩ none true true none (getDefaultResult none) 0 1000
    (Or.inr ⟨some (JsError.rateLimitError 60), rfl⟩) rfl rfl (by simp) rfl (by norm_num)

/-- Counterexample to C3 as stated: when every model of the chain fails,
the public interpret route does *not* render a 5xx/502-style error
response — `callOpenAIWithFallback` throws the last error, but `callLLM`
catches it and returns a default `InterpretResult`, which the route
renders as a successful response from the `llm` tier. -/
theorem allModelsFail_ok_response_cex :
    (callOpenAIWithFallback (fun _ _ => AttemptOutcome.fail
        (.retryableError "OpenAI 伺服器錯誤: 500" (some 500) none)) "gpt-4o-mini").1
      = Except.error (some (JsError.retryableError "OpenAI 伺服器錯誤: 500" (some 500) none))
    ∧ callLLM (fun _ => getDefaultResult none) "sk-live"
        (Except.error (some (JsError.retryableError "OpenAI 伺服器錯誤: 500" (some 500) none)))
      = getDefaultResult (some "無法連接 AI 服務，請檢查網路連線")
    ∧ (interpretPOST (⟨[], 50, 300000⟩ : LRUCache InterpretResult) ⟨true, 9, 60000, none⟩
        (some (⟨"chart1"⟩, none)) false none
        (getDefaultResult (some "無法連接 AI 服務，請檢查網路連線")) 0).response
      = .okJson (getDefaultResult (some "無法連接 AI 服務，請檢查網路連線")) .llm 9 60000 := by
  exact ⟨rfl, rfl, rfl⟩

/-- C3 (amended): when every model in the chain fails,
`callOpenAIWithFallback` throws the last underlying error; `callLLM`
catches it and degrades to the default `InterpretResult` for that error
class, and the public interpret route surfaces this as a *successful*
response from the compute tier — not as a 5xx/502-style error. -/
theorem allModelsFail_default_response (ops : String → Nat → AttemptOutcome String)
    (p : String) (L : List String) (m' : String) (e' : JsError)
    (parse : String → InterpretResult) (apiKey : String)
    (cache : LRUCache InterpretResult) (rate : RateLimitResult)
    (a : AstrolabeIn) (fortune : Option FortuneIn) (sbConf : Bool) (now : Nat)
    (hchain : buildModelChain p MODEL_FALLBACK_ORDER = L ++ [m'])
    (hfailL : ∀ x ∈ L, ∃ e, (withRetry 2 (ops x)).1 = .error e)
    (hm : (withRetry 2 (ops m')).1 = .error e')
    (hkey : apiKey ≠ "")
    (hallow : rate.allowed = true)
    (hmiss : (LRUCache.get cache (buildInterpretCacheKey a fortune) now).1 = none) :
    (callOpenAIWithFallback ops p).1 = .error (some e')
    ∧ callLLM parse apiKey (callOpenAIWithFallback ops p).1
        = getDefaultResult (some (llmErrorDefaultMsg e'))
    ∧ (interpretPOST cache rate (some (a, fortune)) sbConf none
        (callLLM parse apiKey (callOpenAIWithFallback ops p).1) now).response
      = .okJson (getDefaultResult (some (llmErrorDefaultMsg e'))) .llm
          rate.remaining rate.resetTime := by
  have h1 : (callOpenAIWithFallback ops p).1 = .error (some e') := by
    have hall := runModels_allFail (fun m => (withRetry 2 (ops m)).1) L m' e' none hfailL hm
    simp only [callOpenAIWithFallback, hchain]
    rw [hall]
  have h2 : callLLM parse apiKey (callOpenAIWithFallback ops p).1
      = getDefaultResult (some (llmErrorDefaultMsg e')) := by
    rw [h1]
    simp [callLLM, hkey]
  refine ⟨h1, h2, ?_⟩
  have h3 := interpretPOST_compute cache rate a fortune sbConf
    (callLLM parse apiKey (callOpenAIWithFallback ops p).1) now hallow hmiss
  rw [h3, h2]

/-- Witness for `allModelsFail_default_response`: both chain models reject
with a 500 `RetryableError`; the route answers 200 with the generic
default text. -/
theorem allModelsFail_default_response_witness :
    (buildModelChain "gpt-4o-mini" MODEL_FALLBACK_ORDER
      = ["gpt-4o-mini"] ++ ["gpt-3.5-turbo"])
    ∧ (("sk-live" : String) ≠ "")
    ∧ ((callOpenAIWithFallback (fun _ _ => AttemptOutcome.fail
          (.retryableError "OpenAI 伺服器錯誤: 500" (some 500) none)) "gpt-4o-mini").1
        = .error (some (JsError.retryableError "OpenAI 伺服器錯誤: 500" (some 500) none)))
    ∧ (interpretPOST (⟨[], 50, 300000⟩ : LRUCache InterpretResult) ⟨true, 9, 60000, none⟩
        (some (⟨"chart1"⟩, none)) false none
        (callLLM (fun _ => getDefaultResult none) "sk-live"
          (callOpenAIWithFallback (fun _ _ => AttemptOutcome.fail
            (.retryableError "OpenAI 伺服器錯誤: 500" (some 500) none)) "gpt-4o-mini").1)
        0).response
      = .okJson (getDefaultResult (some (llmErrorDefaultMsg
          (JsError.retryableError "OpenAI 伺服器錯誤: 500" (some 500) none)))) .llm
          9 60000 := by
  have h := allModelsFail_default_response
    (fun _ _ => AttemptOutcome.fail (.retryableError "OpenAI 伺服器錯誤: 500" (some 500) none))
    "gpt-4o-mini" ["gpt-4o-mini"] "gpt-3.5-turbo"
    (JsError.retryableError "OpenAI 伺服器錯誤: 500" (some 500) none)
    (fun _ => getDefaultResult none) "sk-live"
    (⟨[], 50, 300000⟩ : LRUCache InterpretResult) ⟨true, 9, 60000, none⟩
    ⟨"chart1"⟩ none false 0
    (by decide)
    (by
      intro x hx
      have hx' : x = "gpt-4o-mini" := by simpa using hx
      subst hx'
      exact ⟨JsError.retryableError "OpenAI 伺服器錯誤: 500" (some 500) none, rfl⟩)
    rfl (by decide) rfl rfl
  exact ⟨by decide, by decide, h.1, h.2.2⟩

end ZiWi
